import Mathlib

set_option linter.unusedVariables false

/-!
Verification of the Taichi `Program` execution context
(`taichi/program/program.h`) via a shallow embedding in Lean 4.

External collaborator types (`CompileConfig`, `DataType`, `Kernel`,
`Function`, `FunctionKey`, `SNode`, `SNodeTree`) are declared in headers of
the repository outside the embedded unit; they are modelled here as small
value records carrying exactly the identity the `Program` header observes of
them.  `std::thread::id` is modelled as `Nat`; `DataType` is modelled by the
`Nat` identity that both its equality and its `hash()` are derived from in
the real code.  Hash-like external functions (`DataType::hash`,
`std::hash<std::thread::id>`) are kept abstract as `Nat → Nat` parameters.
Maps (`std::unordered_map`) are modelled as association lists with
first-match lookup; `std::stack` as a list with its head as the top.
Fatal assertions / hard failures are modelled as `Option` with `none` for
the failing branch.
-/

namespace Taichi

/-- Modelled from the spec: `CompileConfig` is a value-type bag of
compilation options (target architecture, optimization flags, ...); its
concrete field list lives in a header outside the embedded unit, so a
representative record of option fields stands in for it. -/
structure CompileConfig where
  arch : Nat
  debug : Bool
  opt_level : Nat
deriving DecidableEq, Repr, Inhabited

/-- `JITEvaluatorId` from `program.h`: composite cache key for the JIT
evaluator cache.  `thread_id` models `std::thread::id`, `op` the operator
code, `ret`/`lhs`/`rhs` the `DataType` fields (by the identity their
equality and hash observe), `tb` the trace string, `is_binary` the flag. -/
structure JITEvaluatorId where
  thread_id : Nat
  op : Nat
  ret : Nat
  lhs : Nat
  rhs : Nat
  tb : String
  is_binary : Bool
deriving DecidableEq, Repr

/-- `JITEvaluatorId::operator==` from `program.h`:
`thread_id == o.thread_id && op == o.op && ret == o.ret && lhs == o.lhs &&
rhs == o.rhs && is_binary == o.is_binary && tb == o.tb`. -/
def jitIdEq (a b : JITEvaluatorId) : Bool :=
  a.thread_id == b.thread_id && a.op == b.op && a.ret == b.ret &&
  a.lhs == b.lhs && a.rhs == b.rhs && a.is_binary == b.is_binary &&
  a.tb == b.tb

/-- `std::hash<taichi::lang::JITEvaluatorId>::operator()` from `program.h`:
`((size_t)op | (ret.hash() << 8) | (lhs.hash() << 16) | (rhs.hash() << 24)
 | ((size_t)is_binary << 31)) ^ (std::hash<std::thread::id>{}(thread_id) << 32)`.
`dtHash` abstracts `DataType::hash`, `threadHash` abstracts
`std::hash<std::thread::id>`; all arithmetic is `std::size_t`, i.e. modulo
`2 ^ 64`. -/
def jitIdHash (dtHash threadHash : Nat → Nat) (id : JITEvaluatorId) : Nat :=
  ((id.op % 2 ^ 64) |||
   ((dtHash id.ret <<< 8) % 2 ^ 64) |||
   ((dtHash id.lhs <<< 16) % 2 ^ 64) |||
   ((dtHash id.rhs <<< 24) % 2 ^ 64) |||
   (((if id.is_binary then 1 else 0) <<< 31) % 2 ^ 64)) ^^^
  ((threadHash id.thread_id <<< 32) % 2 ^ 64)

/-- A `Kernel` as constructed by `Program::kernel`: the constructor
arguments the `Program` header passes along (`body` tags the
`std::function` builder callback). -/
structure Kernel where
  body : Nat
  name : String
  autodiff_mode : Nat
deriving DecidableEq, Repr

/-- An `SNodeTree` as the registry observes it: its integer id and its root
`SNode` (the root is modelled by a `Nat` tag). -/
structure SNodeTree where
  id : Nat
  root : Nat
deriving DecidableEq, Repr

/-- `FunctionKey` (declared in `taichi/program/function.h`, outside the
embedded unit): a logical identity for user functions, modelled as a record
with decidable equality. -/
structure FunctionKey where
  func_name : String
  instance_id : Nat
deriving DecidableEq, Repr

/-- A `Function` as registered by `Program::create_function`: it carries
its deduplication key. -/
structure Function where
  func_key : FunctionKey
deriving DecidableEq, Repr

/-- First-match lookup in an association list, modelling
`std::unordered_map` lookup / `count`. -/
def lookupA {α β : Type} [DecidableEq α] : List (α × β) → α → Option β
  | [], _ => none
  | (k2, v) :: rest, k => if k2 = k then some v else lookupA rest k

/-- Insert-or-assign on an association list, modelling `map[k] = v`. -/
def insertAssign {α β : Type} [DecidableEq α] :
    List (α × β) → α → β → List (α × β)
  | [], k, v => [(k, v)]
  | (k2, v2) :: rest, k, v =>
    if k2 = k then (k, v) :: rest else (k2, v2) :: insertAssign rest k v

/-- The state of a `Program` object: exactly the data members of the
`Program` class in `program.h` that the verified operations touch.
`configs` and `main_thread_id` model the per-thread configuration map;
`kernels` the owned kernel list; `jit_evaluator_cache` maps cache keys to
kernel identities (the value of the `jit_evaluator_id` counter at compile
time stands in for the distinct heap object); `snode_trees` is the slot
vector of live trees (`none` = invalidated slot); `free_snode_tree_ids` is
the free-id stack with its head as the top; `functions` is the owned
function list and `function_map` the key-to-instance table (instances are
identified by their index in `functions`). -/
structure Program where
  configs : List (Nat × CompileConfig)
  main_thread_id : Nat
  kernels : List Kernel
  jit_evaluator_cache : List (JITEvaluatorId × Nat)
  jit_evaluator_id : Nat
  snode_trees : List (Option SNodeTree)
  free_snode_tree_ids : List Nat
  functions : List Function
  function_map : List (FunctionKey × Nat)
deriving DecidableEq, Repr

/-- Modelled from the spec: the `Program` constructor (outside the embedded
unit) seeds the configuration map with the constructing (main) thread's
entry; all registries start empty. -/
def initProgram (main : Nat) (c : CompileConfig) : Program :=
  { configs := [(main, c)]
    main_thread_id := main
    kernels := []
    jit_evaluator_cache := []
    jit_evaluator_id := 0
    snode_trees := []
    free_snode_tree_ids := []
    functions := []
    function_map := [] }

/-- `Program::this_thread_config` from `program.h`: if the calling thread
has no entry (`!configs.count(thread_id)`), evaluate
`configs[main_thread_id_]` (which default-inserts if the main entry is
absent, per `operator[]`), assign it to `configs[thread_id]` and return
that entry; otherwise return the existing entry.  The returned
`CompileConfig &` is modelled by returning the entry's value together with
the updated state. -/
def this_thread_config (p : Program) (tid : Nat) : CompileConfig × Program :=
  match lookupA p.configs tid with
  | some c => (c, p)
  | none =>
    let pr : CompileConfig × List (Nat × CompileConfig) :=
      match lookupA p.configs p.main_thread_id with
      | some c => (c, p.configs)
      | none => (default, insertAssign p.configs p.main_thread_id default)
    (pr.1, { p with configs := insertAssign pr.2 tid pr.1 })

/-- Writing through the `CompileConfig &` returned by
`this_thread_config`, i.e. mutating the calling thread's entry of
`configs` in place. -/
def setThreadConfig (p : Program) (tid : Nat) (c : CompileConfig) : Program :=
  { p with configs := insertAssign p.configs tid c }

/-- The entry `Program::config()` returns: `configs[main_thread_id_]`, the
main thread's canonical configuration. -/
def mainConfig (p : Program) : Option CompileConfig :=
  lookupA p.configs p.main_thread_id

/-- `Program::allocate_snode_tree_id` (declared in `program.h` with the
contract "Returns and consumes a free SNode tree id if there is any,
Otherwise returns the size of `snode_trees_`"; body outside the embedded
unit).  Modelled from the spec: pops and returns an id from the free-id
stack if non-empty (LIFO), otherwise returns the current size of the
live-tree list. -/
def allocate_snode_tree_id (p : Program) : Nat × Program :=
  match p.free_snode_tree_ids with
  | [] => (p.snode_trees.length, p)
  | i :: rest => (i, { p with free_snode_tree_ids := rest })

/-- Modelled from the spec: `Program::add_snode_tree` (body outside the
embedded unit) allocates an id, constructs the tree record and stores it in
the registry slot of that id (growing the list when the id is the next
sequential one); `compile_only` only controls backend materialization,
which is outside this registry model. -/
def add_snode_tree (p : Program) (root : Nat) (compile_only : Bool) :
    SNodeTree × Program :=
  let a := allocate_snode_tree_id p
  let tree : SNodeTree := ⟨a.1, root⟩
  let trees :=
    if a.1 < a.2.snode_trees.length then a.2.snode_trees.set a.1 (some tree)
    else a.2.snode_trees ++ [some tree]
  (tree, { a.2 with snode_trees := trees })

/-- Modelled from the spec: `Program::destroy_snode_tree` (body outside the
embedded unit) releases backend resources, pushes the tree's id onto the
free-id stack and invalidates the tree's slot. -/
def destroy_snode_tree (p : Program) (tree : SNodeTree) : Program :=
  { p with snode_trees := p.snode_trees.set tree.id none
           free_snode_tree_ids := tree.id :: p.free_snode_tree_ids }

/-- Modelled from the spec: `Program::get_snode_root` (body outside the
embedded unit) returns the root of the tree named by `tree_id` and fails
(a hard assertion, modelled as `none`) when `tree_id` does not name a live
tree. -/
def get_snode_root (p : Program) (tree_id : Nat) : Option Nat :=
  match p.snode_trees.get? tree_id with
  | some (some t) => some t.root
  | _ => none

/-- Modelled from the spec: `Program::create_function` (body outside the
embedded unit) returns the existing function for the key if present,
otherwise constructs a new one, registers it in `functions_` and
`function_map_`, and returns it.  The returned `Function *` is modelled by
the instance's index in `functions`. -/
def create_function (p : Program) (key : FunctionKey) : Nat × Program :=
  match lookupA p.function_map key with
  | some f => (f, p)
  | none =>
    (p.functions.length,
     { p with functions := p.functions ++ [⟨key⟩]
              function_map := insertAssign p.function_map key
                p.functions.length })

/-- Modelled from the spec: the JIT evaluator cache's `get_or_compile`
(body outside the embedded unit) builds a `JITEvaluatorId` including the
calling thread's identity, returns the cached kernel on a hit, and on a
miss compiles a fresh kernel, inserts it under that id and returns it.
The returned `Kernel *` is modelled by the value of the
`jit_evaluator_id` counter at compile time, which identifies the distinct
heap object. -/
def get_or_compile (p : Program) (op : Nat) (is_binary : Bool)
    (ret lhs rhs : Nat) (tb : String) (thread_id : Nat) : Nat × Program :=
  let key : JITEvaluatorId := ⟨thread_id, op, ret, lhs, rhs, tb, is_binary⟩
  match lookupA p.jit_evaluator_cache key with
  | some k => (k, p)
  | none =>
    (p.jit_evaluator_id,
     { p with jit_evaluator_cache := insertAssign p.jit_evaluator_cache key
                p.jit_evaluator_id
              jit_evaluator_id := p.jit_evaluator_id + 1 })

/-- `Program::kernel` from `program.h`: constructs a `Kernel` from the
builder callback, name and autodiff mode, appends it to `kernels` via
`emplace_back`, and returns `*kernels.back()`. -/
def kernel (p : Program) (body : Nat) (name : String) (autodiff_mode : Nat) :
    Kernel × Program :=
  let k : Kernel := ⟨body, name, autodiff_mode⟩
  (k, { p with kernels := p.kernels ++ [k] })

/-- `Program::get_kernel_id` from `program.h`: a static counter starting
at 0; `TI_ASSERT(id < 100000)` then `return id++`.  The state is the
counter value; `none` models the fatal assertion. -/
def get_kernel_id (id : Nat) : Option (Nat × Nat) :=
  if id < 100000 then some (id, id + 1) else none

/-- The counter value after `n` calls to `get_kernel_id` starting from the
static initializer 0, or `none` if some call hit the assertion. -/
def kernel_id_after : Nat → Option Nat
  | 0 => some 0
  | n + 1 => (kernel_id_after n).bind fun s => (get_kernel_id s).map Prod.snd

/-- Well-formedness of the JIT evaluator cache: cached kernel identities
are pairwise distinct (distinct heap objects) and below the allocation
counter.  Holds of `initProgram` and is preserved by `get_or_compile`. -/
def jitWF (p : Program) : Prop :=
  (p.jit_evaluator_cache.map Prod.snd).Nodup ∧
  ∀ kv ∈ p.jit_evaluator_cache, kv.2 < p.jit_evaluator_id

/-- Well-formedness of the function registry: registered instance indices
are pairwise distinct and within `functions`.  Holds of `initProgram` and
is preserved by `create_function`. -/
def funWF (p : Program) : Prop :=
  (p.function_map.map Prod.snd).Nodup ∧
  ∀ kv ∈ p.function_map, kv.2 < p.functions.length

instance (p : Program) : Decidable (jitWF p) := by
  unfold jitWF; infer_instance

instance (p : Program) : Decidable (funWF p) := by
  unfold funWF; infer_instance

/-! ### Association-list lemmas -/

theorem lookupA_insertAssign_self {α β : Type} [DecidableEq α]
    (m : List (α × β)) (k : α) (v : β) :
    lookupA (insertAssign m k v) k = some v := by
  induction m with
  | nil => simp [insertAssign, lookupA]
  | cons hd tl ih =>
    obtain ⟨k2, v2⟩ := hd
    by_cases h : k2 = k
    · simp [insertAssign, h, lookupA]
    · simp [insertAssign, h, lookupA, ih]

theorem lookupA_insertAssign_ne {α β : Type} [DecidableEq α]
    (m : List (α × β)) (k k2 : α) (v : β) (h : k ≠ k2) :
    lookupA (insertAssign m k v) k2 = lookupA m k2 := by
  induction m with
  | nil => simp [insertAssign, lookupA, h]
  | cons hd tl ih =>
    obtain ⟨k3, v3⟩ := hd
    by_cases h3 : k3 = k
    · subst h3; simp [insertAssign, lookupA, h]
    · simp [insertAssign, h3, lookupA, ih]

theorem lookupA_mem {α β : Type} [DecidableEq α]
    {m : List (α × β)} {k : α} {v : β} (h : lookupA m k = some v) :
    (k, v) ∈ m := by
  induction m with
  | nil => simp [lookupA] at h
  | cons hd tl ih =>
    obtain ⟨k2, v2⟩ := hd
    by_cases h2 : k2 = k
    · subst h2
      simp [lookupA] at h
      subst h
      exact List.mem_cons_self _ _
    · simp [lookupA, h2] at h
      exact List.mem_cons_of_mem _ (ih h)

/-- Under distinct stored values, lookups of distinct keys that both hit
return distinct values. -/
theorem lookupA_inj {α β : Type} [DecidableEq α]
    {m : List (α × β)} {k1 k2 : α} {v1 v2 : β}
    (hnd : (m.map Prod.snd).Nodup)
    (h1 : lookupA m k1 = some v1) (h2 : lookupA m k2 = some v2)
    (hk : k1 ≠ k2) : v1 ≠ v2 := by
  intro hv
  subst hv
  have hm1 : (k1, v1) ∈ m := lookupA_mem h1
  have hm2 : (k2, v1) ∈ m := lookupA_mem h2
  have := List.inj_on_of_nodup_map hnd hm1 hm2 rfl
  exact hk (congrArg Prod.fst this)

theorem insertAssign_of_lookupA_none {α β : Type} [DecidableEq α]
    (m : List (α × β)) (k : α) (v : β) (h : lookupA m k = none) :
    insertAssign m k v = m ++ [(k, v)] := by
  induction m with
  | nil => rfl
  | cons hd tl ih =>
    obtain ⟨k2, v2⟩ := hd
    by_cases h2 : k2 = k
    · simp [lookupA, h2] at h
    · simp only [lookupA, h2, if_neg, if_false] at h
      simp [insertAssign, h2, ih h]

/-- `get_or_compile` preserves well-formedness of the evaluator cache. -/
theorem jitWF_get_or_compile (p : Program) (op : Nat) (ib : Bool)
    (ret lhs rhs : Nat) (tb : String) (t : Nat) (hwf : jitWF p) :
    jitWF (get_or_compile p op ib ret lhs rhs tb t).2 := by
  cases h : lookupA p.jit_evaluator_cache
      (⟨t, op, ret, lhs, rhs, tb, ib⟩ : JITEvaluatorId) with
  | some k => simpa [get_or_compile, h] using hwf
  | none =>
    have hins := insertAssign_of_lookupA_none p.jit_evaluator_cache
      (⟨t, op, ret, lhs, rhs, tb, ib⟩ : JITEvaluatorId) p.jit_evaluator_id h
    simp only [get_or_compile, h]
    unfold jitWF
    simp only [hins, List.map_append, List.map_cons, List.map_nil]
    constructor
    · rw [List.nodup_append]
      refine ⟨hwf.1, List.nodup_singleton _, ?_⟩
      intro a ha hb
      simp only [List.mem_singleton] at hb
      subst hb
      obtain ⟨kv, hkv, hsnd⟩ := List.mem_map.mp ha
      exact Nat.lt_irrefl _ (hsnd ▸ hwf.2 kv hkv)
    · intro kv hkv
      rcases List.mem_append.mp hkv with hold | hnew
      · exact Nat.lt_trans (hwf.2 kv hold) (Nat.lt_succ_self _)
      · simp only [List.mem_singleton] at hnew
        subst hnew
        exact Nat.lt_succ_self _

/-- `create_function` preserves well-formedness of the function
registry. -/
theorem funWF_create_function (p : Program) (key : FunctionKey)
    (hwf : funWF p) : funWF (create_function p key).2 := by
  cases h : lookupA p.function_map key with
  | some f => simpa [create_function, h] using hwf
  | none =>
    have hins := insertAssign_of_lookupA_none p.function_map key
      p.functions.length h
    simp only [create_function, h]
    unfold funWF
    simp only [hins, List.map_append, List.map_cons, List.map_nil,
      List.length_append, List.length_cons, List.length_nil]
    constructor
    · rw [List.nodup_append]
      refine ⟨hwf.1, List.nodup_singleton _, ?_⟩
      intro a ha hb
      simp only [List.mem_singleton] at hb
      subst hb
      obtain ⟨kv, hkv, hsnd⟩ := List.mem_map.mp ha
      exact Nat.lt_irrefl _ (hsnd ▸ hwf.2 kv hkv)
    · intro kv hkv
      rcases List.mem_append.mp hkv with hold | hnew
      · exact Nat.lt_trans (hwf.2 kv hold) (Nat.lt_succ_self _)
      · simp only [List.mem_singleton] at hnew
        subst hnew
        exact Nat.lt_succ_self _

/-! ### Claim theorems -/

/-- C4: `JITEvaluatorId::operator==` returns true iff every field of the
two ids matches (`thread_id`, `op`, `ret`, `lhs`, `rhs`, `is_binary` and
the trace string `tb`); in particular, ids agreeing on everything but the
thread identity compare unequal. -/
theorem jitIdEq_iff_fields :
    (∀ a b : JITEvaluatorId,
      jitIdEq a b = true ↔
        (a.thread_id = b.thread_id ∧ a.op = b.op ∧ a.ret = b.ret ∧
         a.lhs = b.lhs ∧ a.rhs = b.rhs ∧ a.is_binary = b.is_binary ∧
         a.tb = b.tb)) ∧
    (∀ a b : JITEvaluatorId,
      a.op = b.op → a.ret = b.ret → a.lhs = b.lhs → a.rhs = b.rhs →
      a.is_binary = b.is_binary → a.tb = b.tb →
      a.thread_id ≠ b.thread_id → jitIdEq a b = false) := by
  constructor
  · intro a b
    simp [jitIdEq, and_assoc]
  · intro a b h1 h2 h3 h4 h5 h6 hne
    simp [jitIdEq, h1, h2, h3, h4, h5, h6, hne]

/-- C4 witness: the field-wise characterization and the thread-identity
separation evaluated at concrete ids. -/
theorem jitIdEq_iff_fields_witness :
    jitIdEq ⟨0, 1, 2, 3, 4, "a", true⟩ ⟨5, 1, 2, 3, 4, "a", true⟩ = false :=
  jitIdEq_iff_fields.2 ⟨0, 1, 2, 3, 4, "a", true⟩ ⟨5, 1, 2, 3, 4, "a", true⟩
    rfl rfl rfl rfl rfl rfl (by decide)

/-- C10: the hash of a `JITEvaluatorId` depends only on `op`, `ret`,
`lhs`, `rhs`, `is_binary` and `thread_id`, never on the trace string `tb`
(so ids differing only in `tb` collide), and any two ids equal under
`operator==` have equal hashes — for every choice of the external
`DataType::hash` and `std::hash<std::thread::id>` functions. -/
theorem jitIdHash_ignores_tb :
    (∀ (dtHash threadHash : Nat → Nat) (a b : JITEvaluatorId),
      a.op = b.op → a.ret = b.ret → a.lhs = b.lhs → a.rhs = b.rhs →
      a.is_binary = b.is_binary → a.thread_id = b.thread_id →
      jitIdHash dtHash threadHash a = jitIdHash dtHash threadHash b) ∧
    (∀ (dtHash threadHash : Nat → Nat) (a b : JITEvaluatorId),
      jitIdEq a b = true →
      jitIdHash dtHash threadHash a = jitIdHash dtHash threadHash b) := by
  constructor
  · intro dtHash threadHash a b h1 h2 h3 h4 h5 h6
    simp [jitIdHash, h1, h2, h3, h4, h5, h6]
  · intro dtHash threadHash a b heq
    simp only [jitIdEq, Bool.and_eq_true, beq_iff_eq] at heq
    obtain ⟨⟨⟨⟨⟨⟨ht, hop⟩, hr⟩, hl⟩, hrh⟩, hb⟩, htb⟩ := heq
    simp [jitIdHash, ht, hop, hr, hl, hrh, hb]

/-- C10 witness: two ids differing only in `tb` hash identically (with
identity standing in for the external hash functions). -/
theorem jitIdHash_ignores_tb_witness :
    jitIdHash (fun n => n) (fun n => n) ⟨0, 1, 2, 3, 4, "a", true⟩ =
    jitIdHash (fun n => n) (fun n => n) ⟨0, 1, 2, 3, 4, "b", true⟩ :=
  jitIdHash_ignores_tb.1 (fun n => n) (fun n => n)
    ⟨0, 1, 2, 3, 4, "a", true⟩ ⟨0, 1, 2, 3, 4, "b", true⟩
    rfl rfl rfl rfl rfl rfl

theorem kernel_id_after_eq (n : Nat) (h : n ≤ 100000) :
    kernel_id_after n = some n := by
  induction n with
  | zero => rfl
  | succ m ih =>
    have hm : m ≤ 100000 := Nat.le_of_succ_le h
    have hlt : m < 100000 := Nat.lt_of_succ_le h
    simp [kernel_id_after, ih hm, get_kernel_id, hlt]

/-- C9: `Program::get_kernel_id` issues consecutive integers starting at
0 — after `n` successful calls the static counter is `n`, so the
`(n+1)`-th call returns `n` — and while fewer than 100000 ids have been
issued every call succeeds (the `TI_ASSERT(id < 100000)` failure branch,
modelled as `none`, is unreachable). -/
theorem get_kernel_id_consecutive (n : Nat) (h : n < 100000) :
    kernel_id_after n = some n ∧ get_kernel_id n = some (n, n + 1) := by
  refine ⟨kernel_id_after_eq n (Nat.le_of_lt h), ?_⟩
  simp [get_kernel_id, h]

/-- C9 witness: the 6th call (5 ids already issued) returns 5 and
succeeds. -/
theorem get_kernel_id_consecutive_witness :
    kernel_id_after 5 = some 5 ∧ get_kernel_id 5 = some (5, 6) :=
  get_kernel_id_consecutive 5 (by decide)

/-- C7: the first `this_thread_config` call from a thread with no entry
inserts a copy of the main thread's configuration under that thread and
returns it; any call from a thread that already has an entry returns that
entry unchanged, with no re-copy (the whole state is untouched). -/
theorem this_thread_config_lazy_clone (p : Program) (tid : Nat)
    (mc : CompileConfig)
    (hmc : lookupA p.configs p.main_thread_id = some mc) :
    (lookupA p.configs tid = none →
      (this_thread_config p tid).1 = mc ∧
      lookupA (this_thread_config p tid).2.configs tid = some mc) ∧
    (∀ c, lookupA p.configs tid = some c →
      this_thread_config p tid = (c, p)) := by
  constructor
  · intro hnone
    simp [this_thread_config, hnone, hmc, lookupA_insertAssign_self]
  · intro c hc
    unfold this_thread_config
    simp [hc]

/-- C7 witness: thread 7 is lazily seeded from the main configuration on
first call; thread 0 (already present) gets its entry back unchanged. -/
theorem this_thread_config_lazy_clone_witness :
    ((this_thread_config (initProgram 0 ⟨3, true, 1⟩) 7).1 = ⟨3, true, 1⟩ ∧
      lookupA (this_thread_config (initProgram 0 ⟨3, true, 1⟩) 7).2.configs 7 =
        some ⟨3, true, 1⟩) ∧
    this_thread_config (initProgram 0 ⟨3, true, 1⟩) 0 =
      (⟨3, true, 1⟩, initProgram 0 ⟨3, true, 1⟩) :=
  ⟨(this_thread_config_lazy_clone (initProgram 0 ⟨3, true, 1⟩) 7
      ⟨3, true, 1⟩ (by decide)).1 (by decide),
   (this_thread_config_lazy_clone (initProgram 0 ⟨3, true, 1⟩) 0
      ⟨3, true, 1⟩ (by decide)).2 ⟨3, true, 1⟩ (by decide)⟩

/-- C3 counterexample: the claim quantifies over any two distinct threads
that have obtained their configuration via `this_thread_config`, and the
main thread is such a thread (its call returns the canonical entry
itself).  Concretely: main thread 0 and thread 1 both obtain their
configurations; mutating thread 0's configuration changes the main
thread's canonical configuration, contradicting the claimed frame
property. -/
theorem config_isolation_counterexample :
    mainConfig
        (setThreadConfig
          ((this_thread_config
              ((this_thread_config (initProgram 0 ⟨0, false, 0⟩) 1).2) 0).2)
          0 ⟨1, false, 0⟩) ≠
      mainConfig
        ((this_thread_config
            ((this_thread_config (initProgram 0 ⟨0, false, 0⟩) 1).2) 0).2) := by
  decide

/-- C3 (amended): for two distinct threads that have both obtained their
configurations, with the mutated thread not the main thread, mutating that
thread's configuration leaves the other thread's configuration and the
main thread's canonical configuration unchanged. -/
theorem config_isolation (p : Program) (t1 t2 : Nat) (c : CompileConfig)
    (h12 : t1 ≠ t2) (hmain : t1 ≠ p.main_thread_id)
    (h1 : (lookupA p.configs t1).isSome = true)
    (h2 : (lookupA p.configs t2).isSome = true) :
    lookupA (setThreadConfig p t1 c).configs t2 = lookupA p.configs t2 ∧
    mainConfig (setThreadConfig p t1 c) = mainConfig p := by
  unfold setThreadConfig mainConfig
  exact ⟨lookupA_insertAssign_ne _ _ _ _ h12,
    lookupA_insertAssign_ne _ _ _ _ hmain⟩

/-- C3 witness: with main thread 0 and threads 1, 2 seeded, mutating
thread 1's configuration leaves thread 2's entry and the canonical entry
unchanged. -/
theorem config_isolation_witness :
    lookupA
        (setThreadConfig
          { initProgram 0 ⟨0, false, 0⟩ with
            configs := [(0, ⟨0, false, 0⟩), (1, ⟨0, false, 0⟩),
              (2, ⟨0, false, 0⟩)] }
          1 ⟨9, true, 2⟩).configs 2 = some ⟨0, false, 0⟩ ∧
    mainConfig
        (setThreadConfig
          { initProgram 0 ⟨0, false, 0⟩ with
            configs := [(0, ⟨0, false, 0⟩), (1, ⟨0, false, 0⟩),
              (2, ⟨0, false, 0⟩)] }
          1 ⟨9, true, 2⟩) = some ⟨0, false, 0⟩ := by
  have h := config_isolation
    { initProgram 0 ⟨0, false, 0⟩ with
      configs := [(0, ⟨0, false, 0⟩), (1, ⟨0, false, 0⟩),
        (2, ⟨0, false, 0⟩)] }
    1 2 ⟨9, true, 2⟩ (by decide) (by decide) (by decide) (by decide)
  exact ⟨h.1.trans (by decide), h.2.trans (by decide)⟩

/-- C8: `Program::kernel` appends exactly one new `Kernel` at the end of
the owned kernel list and returns that kernel; the previous list is
preserved as a prefix (no entry is removed, replaced or relocated), and
none of the other modelled operations on the context touches the kernel
list. -/
theorem kernel_append_only (p : Program) (b : Nat) (nm : String) (am : Nat) :
    (kernel p b nm am).2.kernels = p.kernels ++ [⟨b, nm, am⟩] ∧
    (kernel p b nm am).1 = (⟨b, nm, am⟩ : Kernel) ∧
    (kernel p b nm am).2.kernels.length = p.kernels.length + 1 ∧
    (∀ i, i < p.kernels.length →
      (kernel p b nm am).2.kernels.get? i = p.kernels.get? i) ∧
    (∀ t : SNodeTree, (destroy_snode_tree p t).kernels = p.kernels) ∧
    (∀ r co, (add_snode_tree p r co).2.kernels = p.kernels) ∧
    (∀ key, (create_function p key).2.kernels = p.kernels) ∧
    (∀ op ib ret lhs rhs tb t,
      (get_or_compile p op ib ret lhs rhs tb t).2.kernels = p.kernels) ∧
    (∀ tid, (this_thread_config p tid).2.kernels = p.kernels) ∧
    (∀ tid c, (setThreadConfig p tid c).kernels = p.kernels) ∧
    (allocate_snode_tree_id p).2.kernels = p.kernels := by
  refine ⟨rfl, rfl, by simp [kernel], ?_, fun t => rfl, ?_, ?_, ?_, ?_,
    fun tid c => rfl, ?_⟩
  · intro i hi
    simp [kernel, List.get?_eq_getElem?, List.getElem?_append_left hi]
  · intro r co
    unfold add_snode_tree allocate_snode_tree_id
    cases p.free_snode_tree_ids <;> simp
  · intro key
    unfold create_function
    cases lookupA p.function_map key <;> simp
  · intro op ib ret lhs rhs tb t
    rcases h : lookupA p.jit_evaluator_cache
      (⟨t, op, ret, lhs, rhs, tb, ib⟩ : JITEvaluatorId) with _ | k <;>
      simp [get_or_compile, h]
  · intro tid
    unfold this_thread_config
    cases lookupA p.configs tid <;> simp
  · unfold allocate_snode_tree_id
    cases p.free_snode_tree_ids <;> simp

theorem get?_set_self {α : Type} (l : List α) (i : Nat) (v : α)
    (h : i < l.length) : (l.set i v).get? i = some v := by
  induction l generalizing i with
  | nil => simp at h
  | cons hd tl ih =>
    cases i with
    | zero => rfl
    | succ j =>
      simp only [List.set, List.get?]
      exact ih j (Nat.lt_of_succ_lt_succ h)

theorem get?_set_ne {α : Type} (l : List α) (i j : Nat) (v : α)
    (h : i ≠ j) : (l.set i v).get? j = l.get? j := by
  induction l generalizing i j with
  | nil => simp
  | cons hd tl ih =>
    cases i with
    | zero =>
      cases j with
      | zero => exact absurd rfl h
      | succ j2 => rfl
    | succ i2 =>
      cases j with
      | zero => rfl
      | succ j2 =>
        simp only [List.set, List.get?]
        exact ih i2 j2 (fun he => h (congrArg Nat.succ he))

/-- `n` successive `add_snode_tree` calls (with root tag `i` for the
`i`-th call) on a context. -/
def addTrees (p : Program) : Nat → Program
  | 0 => p
  | n + 1 => (add_snode_tree (addTrees p n) n false).2

theorem addTrees_init (main : Nat) (c : CompileConfig) (n : Nat) :
    (addTrees (initProgram main c) n).snode_trees =
      (List.range n).map (fun i => some ⟨i, i⟩) ∧
    (addTrees (initProgram main c) n).free_snode_tree_ids = [] := by
  induction n with
  | zero => exact ⟨rfl, rfl⟩
  | succ m ih =>
    obtain ⟨ht, hf⟩ := ih
    simp [addTrees, add_snode_tree, allocate_snode_tree_id, hf, ht,
      List.range_succ]

/-- C1: `allocate_snode_tree_id` pops and returns the top of the free-id
stack when it is non-empty (the most recently freed id, LIFO) and returns
the size of the live-tree list otherwise; in particular, with the free
stack empty after `N` trees were allocated the next allocation yields `N`,
and after destroying the live tree with id `k` the next allocation yields
`k`. -/
theorem allocate_snode_tree_id_lifo :
    (∀ (p : Program) (i : Nat) (rest : List Nat),
      p.free_snode_tree_ids = i :: rest →
      allocate_snode_tree_id p = (i, { p with free_snode_tree_ids := rest })) ∧
    (∀ p : Program, p.free_snode_tree_ids = [] →
      allocate_snode_tree_id p = (p.snode_trees.length, p)) ∧
    (∀ (main : Nat) (c : CompileConfig) (N k : Nat), k < N →
      (allocate_snode_tree_id (addTrees (initProgram main c) N)).1 = N ∧
      (addTrees (initProgram main c) N).snode_trees.get? k =
        some (some ⟨k, k⟩) ∧
      (allocate_snode_tree_id
        (destroy_snode_tree (addTrees (initProgram main c) N) ⟨k, k⟩)).1 =
        k) := by
  refine ⟨?_, ?_, ?_⟩
  · intro p i rest h
    unfold allocate_snode_tree_id
    rw [h]
  · intro p h
    unfold allocate_snode_tree_id
    rw [h]
  · intro main c N k hk
    obtain ⟨ht, hf⟩ := addTrees_init main c N
    refine ⟨?_, ?_, ?_⟩
    · unfold allocate_snode_tree_id
      rw [hf, ht]
      simp
    · rw [ht]
      simp [List.get?_eq_getElem?, List.getElem?_range, hk]
    · unfold destroy_snode_tree allocate_snode_tree_id
      rw [hf]

/-- C1 witness: from a fresh context, allocate 3 trees (the free stack is
empty, so the next id is 3), destroy the tree with id 1, and the next
allocation yields 1. -/
theorem allocate_snode_tree_id_lifo_witness :
    allocate_snode_tree_id
        { initProgram 0 ⟨0, false, 0⟩ with free_snode_tree_ids := [4, 2] } =
      (4, { initProgram 0 ⟨0, false, 0⟩ with free_snode_tree_ids := [2] }) ∧
    (allocate_snode_tree_id (addTrees (initProgram 0 ⟨0, false, 0⟩) 3)).1 =
      3 ∧
    (allocate_snode_tree_id
      (destroy_snode_tree (addTrees (initProgram 0 ⟨0, false, 0⟩) 3)
        ⟨1, 1⟩)).1 = 1 := by
  have h3 := allocate_snode_tree_id_lifo.2.2 0 ⟨0, false, 0⟩ 3 1 (by decide)
  exact ⟨allocate_snode_tree_id_lifo.1
      { initProgram 0 ⟨0, false, 0⟩ with free_snode_tree_ids := [4, 2] }
      4 [2] rfl,
    h3.1, h3.2.2⟩

/-- C6: destroying a live tree with id `k` pushes `k` onto the free-id
stack and invalidates its slot, so `get_snode_root k` fails (the hard
failure, modelled as `none`) until `k` is reallocated by a subsequent
`add_snode_tree` (after which the lookup yields the new tree's root); and
`get_snode_root i` fails for any `i` that does not name a live tree. -/
theorem destroy_snode_tree_invalidates (p : Program) (t : SNodeTree)
    (hlive : p.snode_trees.get? t.id = some (some t)) :
    (destroy_snode_tree p t).free_snode_tree_ids =
      t.id :: p.free_snode_tree_ids ∧
    get_snode_root (destroy_snode_tree p t) t.id = none ∧
    (∀ (root : Nat) (co : Bool),
      get_snode_root (add_snode_tree (destroy_snode_tree p t) root co).2
        t.id = some root) ∧
    (∀ (q : Program) (i : Nat),
      (∀ u : SNodeTree, q.snode_trees.get? i ≠ some (some u)) →
      get_snode_root q i = none) := by
  have hlt : t.id < p.snode_trees.length := by
    cases h : p.snode_trees.get? t.id with
    | none => rw [h] at hlive; exact absurd hlive (by simp)
    | some u => exact (List.get?_eq_some.mp h).1
  refine ⟨rfl, ?_, ?_, ?_⟩
  · unfold get_snode_root destroy_snode_tree
    simp only
    rw [get?_set_self p.snode_trees t.id none hlt]
  · intro root co
    unfold add_snode_tree allocate_snode_tree_id destroy_snode_tree
    simp only
    have hlt2 : t.id < (p.snode_trees.set t.id none).length := by
      simpa using hlt
    simp only [hlt2, if_pos]
    unfold get_snode_root
    simp only
    rw [get?_set_self _ t.id _ (by simpa using hlt)]
  · intro q i hno
    unfold get_snode_root
    cases h : q.snode_trees.get? i with
    | none => rfl
    | some u =>
      cases u with
      | none => rfl
      | some w => exact absurd h (hno w)

/-- C6 witness: in a context with the single live tree `⟨0, 42⟩`,
destroying it pushes id 0 onto the free stack and makes `get_snode_root 0`
fail; re-adding a tree with root 7 reallocates id 0 and the lookup
succeeds again; and looking up the never-allocated id 5 fails. -/
theorem destroy_snode_tree_invalidates_witness :
    (destroy_snode_tree
        { initProgram 0 ⟨0, false, 0⟩ with snode_trees := [some ⟨0, 42⟩] }
        ⟨0, 42⟩).free_snode_tree_ids = [0] ∧
    get_snode_root
        (destroy_snode_tree
          { initProgram 0 ⟨0, false, 0⟩ with snode_trees := [some ⟨0, 42⟩] }
          ⟨0, 42⟩) 0 = none ∧
    get_snode_root
        (add_snode_tree
          (destroy_snode_tree
            { initProgram 0 ⟨0, false, 0⟩ with
              snode_trees := [some ⟨0, 42⟩] }
            ⟨0, 42⟩) 7 false).2 0 = some 7 ∧
    get_snode_root
        { initProgram 0 ⟨0, false, 0⟩ with snode_trees := [some ⟨0, 42⟩] }
        5 = none := by
  have h := destroy_snode_tree_invalidates
    { initProgram 0 ⟨0, false, 0⟩ with snode_trees := [some ⟨0, 42⟩] }
    ⟨0, 42⟩ (by decide)
  exact ⟨h.1.trans (by decide), h.2.1, h.2.2.1 7 false,
    h.2.2.2 _ 5 (fun u => by simp)⟩

/-- C8 witness: on a context already holding one kernel, a `kernel` call
appends the new kernel, returns it, and leaves index 0 in place; the other
operations leave the list alone. -/
theorem kernel_append_only_witness :
    (kernel { initProgram 0 ⟨0, false, 0⟩ with kernels := [⟨1, "a", 0⟩] }
        7 "f" 2).2.kernels = [⟨1, "a", 0⟩, ⟨7, "f", 2⟩] ∧
    (kernel { initProgram 0 ⟨0, false, 0⟩ with kernels := [⟨1, "a", 0⟩] }
        7 "f" 2).2.kernels.get? 0 = some ⟨1, "a", 0⟩ ∧
    (destroy_snode_tree
        { initProgram 0 ⟨0, false, 0⟩ with kernels := [⟨1, "a", 0⟩] }
        ⟨0, 5⟩).kernels = [⟨1, "a", 0⟩] := by
  have h := kernel_append_only
    { initProgram 0 ⟨0, false, 0⟩ with kernels := [⟨1, "a", 0⟩] } 7 "f" 2
  refine ⟨h.1.trans (by decide), ?_, (h.2.2.2.2.1 ⟨0, 5⟩).trans (by decide)⟩
  exact (h.2.2.2.1 0 (by decide)).trans (by decide)

/-- C2: in a well-formed cache, a second `get_or_compile` call with
identical operator, types, trace and calling thread returns the identical
cached kernel with the state completely unchanged (one compilation in
total, pointer-equal result), while a call with the same parameters from a
different thread yields a distinct kernel object. -/
theorem get_or_compile_idempotent (p : Program) (op : Nat) (ib : Bool)
    (ret lhs rhs : Nat) (tb : String) (t1 t2 : Nat)
    (hwf : jitWF p) (hne : t2 ≠ t1) :
    get_or_compile (get_or_compile p op ib ret lhs rhs tb t1).2
        op ib ret lhs rhs tb t1 =
      get_or_compile p op ib ret lhs rhs tb t1 ∧
    (get_or_compile (get_or_compile p op ib ret lhs rhs tb t1).2
        op ib ret lhs rhs tb t2).1 ≠
      (get_or_compile p op ib ret lhs rhs tb t1).1 := by
  have hkey : (⟨t2, op, ret, lhs, rhs, tb, ib⟩ : JITEvaluatorId) ≠
      (⟨t1, op, ret, lhs, rhs, tb, ib⟩ : JITEvaluatorId) := by
    intro h
    exact hne (congrArg JITEvaluatorId.thread_id h)
  cases h1 : lookupA p.jit_evaluator_cache
      (⟨t1, op, ret, lhs, rhs, tb, ib⟩ : JITEvaluatorId) with
  | some k =>
    have hmem := lookupA_mem h1
    refine ⟨by simp [get_or_compile, h1], ?_⟩
    simp only [get_or_compile, h1]
    cases h2 : lookupA p.jit_evaluator_cache
        (⟨t2, op, ret, lhs, rhs, tb, ib⟩ : JITEvaluatorId) with
    | some k2 =>
      simpa [h2] using lookupA_inj hwf.1 h2 h1 hkey
    | none =>
      simpa [h2] using Nat.ne_of_gt (hwf.2 _ hmem)
  | none =>
    refine ⟨by simp [get_or_compile, h1, lookupA_insertAssign_self], ?_⟩
    simp only [get_or_compile, h1]
    rw [lookupA_insertAssign_ne _ _ _ _ hkey.symm]
    cases h2 : lookupA p.jit_evaluator_cache
        (⟨t2, op, ret, lhs, rhs, tb, ib⟩ : JITEvaluatorId) with
    | some k2 =>
      simpa using Nat.ne_of_lt (hwf.2 _ (lookupA_mem h2))
    | none =>
      simp

/-- C2 witness: on a fresh context, the request from thread 0 compiles
kernel 0; repeating it from thread 0 returns kernel 0 with the state
untouched; the same request from thread 1 compiles a distinct kernel. -/
theorem get_or_compile_idempotent_witness :
    get_or_compile
        (get_or_compile (initProgram 0 ⟨0, false, 0⟩) 3 true 1 1 1 "tb" 0).2
        3 true 1 1 1 "tb" 0 =
      get_or_compile (initProgram 0 ⟨0, false, 0⟩) 3 true 1 1 1 "tb" 0 ∧
    (get_or_compile
        (get_or_compile (initProgram 0 ⟨0, false, 0⟩) 3 true 1 1 1 "tb" 0).2
        3 true 1 1 1 "tb" 1).1 ≠
      (get_or_compile (initProgram 0 ⟨0, false, 0⟩) 3 true 1 1 1 "tb" 0).1 :=
  get_or_compile_idempotent (initProgram 0 ⟨0, false, 0⟩) 3 true 1 1 1 "tb"
    0 1 (by decide) (by decide)

/-- C5: in a well-formed registry, calling `create_function` again with a
key already created returns the same `Function` instance with no new
construction (the state, and so the owned function list, is unchanged),
while a call with a different key returns a different instance — one
instance per unique key. -/
theorem create_function_dedup (p : Program) (k1 k2 : FunctionKey)
    (hwf : funWF p) (hne : k2 ≠ k1) :
    create_function (create_function p k1).2 k1 = create_function p k1 ∧
    (create_function (create_function p k1).2 k2).1 ≠
      (create_function p k1).1 := by
  cases h1 : lookupA p.function_map k1 with
  | some f =>
    have hmem := lookupA_mem h1
    refine ⟨by simp [create_function, h1], ?_⟩
    simp only [create_function, h1]
    cases h2 : lookupA p.function_map k2 with
    | some f2 =>
      simpa [h2] using lookupA_inj hwf.1 h2 h1 hne
    | none =>
      simpa [h2] using Nat.ne_of_gt (hwf.2 _ hmem)
  | none =>
    refine ⟨by simp [create_function, h1, lookupA_insertAssign_self], ?_⟩
    simp only [create_function, h1]
    rw [lookupA_insertAssign_ne _ _ _ _ (fun he => hne he.symm)]
    cases h2 : lookupA p.function_map k2 with
    | some f2 =>
      simpa using Nat.ne_of_lt (hwf.2 _ (lookupA_mem h2))
    | none =>
      simp

/-- C5 witness: on a fresh context, creating the function for key
`("f", 0)` twice returns the same instance with no second construction,
and creating key `("g", 0)` returns a different instance. -/
theorem create_function_dedup_witness :
    create_function (create_function (initProgram 0 ⟨0, false, 0⟩)
        ⟨"f", 0⟩).2 ⟨"f", 0⟩ =
      create_function (initProgram 0 ⟨0, false, 0⟩) ⟨"f", 0⟩ ∧
    (create_function (create_function (initProgram 0 ⟨0, false, 0⟩)
        ⟨"f", 0⟩).2 ⟨"g", 0⟩).1 ≠
      (create_function (initProgram 0 ⟨0, false, 0⟩) ⟨"f", 0⟩).1 :=
  create_function_dedup (initProgram 0 ⟨0, false, 0⟩) ⟨"f", 0⟩ ⟨"g", 0⟩
    (by decide) (by decide)

end Taichi
